import Mathlib

/-!
Shallow embedding of the tallymini accounting backend (Node/Express + Mongo),
covering the role-gated authorization pipeline and the three domain services
(user administration, ledgers, transactions).

Conventions of the embedding:
* Mongo ObjectIds are modelled as `Nat`; each collection is a `List`.
* JS `Date` values are modelled as `Nat` timestamps.
* Monetary values (amounts, balances) are modelled as `Int` (exact arithmetic;
  IEEE-754 rounding of JS numbers is out of scope).
* `Model.findById x` / `findOne` become `List.find?` over the collection.
* Each controller is a pure function from its inputs and the pre-state `DB`
  to an HTTP status (the argument of `res.status`) together with the
  post-state `DB`; handlers that return entity data also return it explicitly
  so that non-disclosure can be stated.
* JS truthiness guards (`if (name) ...`) are modelled for strings as
  "present and nonempty" and for numbers as "present and nonzero";
  `undefined` is `Option.none`.
-/

namespace TallyMini

/-- Roles, from the User schema enum `['master_admin', 'user']`. -/
inductive Role where
  | master_admin
  | user
deriving DecidableEq, Repr

/-- An account record (backend/models/User.js). -/
structure Account where
  id : Nat
  name : String
  email : String
  password : String
  role : Role
  isActive : Bool
deriving DecidableEq, Repr

/-- Ledger types, from the Ledger schema enum. -/
inductive LedgerType where
  | asset
  | liability
  | income
  | expense
  | equity
deriving DecidableEq, Repr

/-- A ledger record (backend/models/Ledger.js). -/
structure Ledger where
  id : Nat
  name : String
  type : LedgerType
  balance : Int
  description : Option String
  createdBy : Nat
  isActive : Bool
deriving DecidableEq, Repr

/-- Transaction types, from the Transaction schema enum. -/
inductive TxnType where
  | payment
  | receipt
  | journal
  | contra
  | sales
  | purchase
deriving DecidableEq, Repr

/-- A transaction/voucher record (backend/models/Transaction.js). -/
structure Txn where
  id : Nat
  date : Nat
  voucherNumber : String
  debitLedger : Nat
  creditLedger : Nat
  amount : Int
  narration : String
  type : TxnType
  createdBy : Nat
  createdAt : Nat
  isDeleted : Bool
  deletedAt : Option Nat
  deletedBy : Option Nat
deriving DecidableEq, Repr

/-- Audit actions used by the controllers (backend/models/AuditLog.js enum,
restricted to the ones the embedded controllers emit). -/
inductive AuditAction where
  | LOGIN
  | LOGOUT
  | CREATE_USER
  | UPDATE_USER
  | DELETE_USER
  | ACTIVATE_USER
  | DEACTIVATE_USER
  | RESET_PASSWORD
  | CREATE_LEDGER
  | UPDATE_LEDGER
  | DELETE_LEDGER
  | CREATE_TRANSACTION
  | UPDATE_TRANSACTION
  | DELETE_TRANSACTION
deriving DecidableEq, Repr

/-- An audit log entry (backend/models/AuditLog.js), restricted to the fields
the claims mention. -/
structure AuditEntry where
  action : AuditAction
  userId : Nat
  userRole : Role
  targetId : Option Nat
deriving DecidableEq, Repr

/-- The persistent state: the four Mongo collections. -/
structure DB where
  users : List Account
  ledgers : List Ledger
  txns : List Txn
  audit : List AuditEntry
deriving DecidableEq, Repr

/-- `User.findById id` -/
def findUser (db : DB) (id : Nat) : Option Account :=
  db.users.find? (fun u => u.id == id)

/-- `Ledger.findById id` -/
def findLedger (db : DB) (id : Nat) : Option Ledger :=
  db.ledgers.find? (fun l => l.id == id)

/-- The minimal principal `verifyToken` attaches as `req.user`. -/
structure Principal where
  id : Nat
  name : String
  email : String
  role : Role
  isActive : Bool
deriving DecidableEq, Repr

/-- Body of `PUT /api/users/:id` (userController.updateUser destructures
`name`, `email`, `isActive`; the master-admin guard additionally inspects
`req.body.role`). -/
structure UserUpdateBody where
  name : Option String
  email : Option String
  isActive : Option Bool
  role : Option Role
deriving DecidableEq, Repr

/-- The condition `req.body.role && req.body.role !== 'master_admin'` of the
guard in `updateUser`. -/
def wantsRoleChange (body : UserUpdateBody) : Bool :=
  match body.role with
  | some r => r != Role.master_admin
  | none => false

/-- Field merge of `updateUser`: `if (name) user.name = name;` etc.  Note the
controller never assigns `user.role`. -/
def applyUserUpdate (u : Account) (body : UserUpdateBody) : Account :=
  let u1 := match body.name with
    | some n => if n ≠ "" then { u with name := n } else u
    | none => u
  let u2 := match body.email with
    | some e => if e ≠ "" then { u1 with email := e } else u1
    | none => u1
  match body.isActive with
  | some b => { u2 with isActive := b }
  | none => u2

/-- Replace every user with the given id (ids are unique in Mongo). -/
def setUser (users : List Account) (id : Nat) (u' : Account) : List Account :=
  users.map (fun v => if v.id == id then u' else v)

/-- `PUT /api/users/:id` — userController.updateUser. -/
def updateUser (caller : Principal) (id : Nat) (body : UserUpdateBody) (db : DB) :
    Nat × DB :=
  match findUser db id with
  | none => (404, db)
  | some u =>
    if u.role == Role.master_admin && wantsRoleChange body then
      (403, db)
    else
      let u' := applyUserUpdate u body
      (200, { db with
                users := setUser db.users id u'
                audit := db.audit ++ [⟨.UPDATE_USER, caller.id, caller.role, some id⟩] })

/-- `PUT /api/users/:id/activate` — userController.activateUser. -/
def activateUser (caller : Principal) (id : Nat) (db : DB) : Nat × DB :=
  match findUser db id with
  | none => (404, db)
  | some u =>
    (200, { db with
              users := setUser db.users id { u with isActive := true }
              audit := db.audit ++ [⟨.ACTIVATE_USER, caller.id, caller.role, some id⟩] })

/-- `PUT /api/users/:id/deactivate` — userController.deactivateUser. -/
def deactivateUser (caller : Principal) (id : Nat) (db : DB) : Nat × DB :=
  match findUser db id with
  | none => (404, db)
  | some u =>
    if u.role == Role.master_admin then
      (403, db)
    else
      (200, { db with
                users := setUser db.users id { u with isActive := false }
                audit := db.audit ++ [⟨.DEACTIVATE_USER, caller.id, caller.role, some id⟩] })

/-- `DELETE /api/users/:id` — userController.deleteUser. -/
def deleteUser (caller : Principal) (id : Nat) (db : DB) : Nat × DB :=
  match findUser db id with
  | none => (404, db)
  | some u =>
    if u.role == Role.master_admin then
      (403, db)
    else
      (200, { db with
                users := db.users.filter (fun v => v.id != id)
                audit := db.audit ++ [⟨.DELETE_USER, caller.id, caller.role, some u.id⟩] })

/-- Number of accounts with role `user`
(`User.countDocuments({ role: 'user' })`). -/
def countUserRole (db : DB) : Nat :=
  (db.users.filter (fun u => u.role == Role.user)).length

/-- `POST /api/auth/register` — authController.register.  `auditFails`
models a thrown rejection of the inline `await AuditLog.create(...)`: the
surrounding `try`/`catch` maps it to a 500 response, after `User.create`
has already persisted the account. -/
def register (caller : Principal) (name email password : String) (role : Role)
    (newId : Nat) (auditFails : Bool) (db : DB) : Nat × DB :=
  if db.users.any (fun u => u.email == email) then
    (409, db)
  else if role == Role.user && 3 ≤ countUserRole db then
    (403, db)
  else
    let db1 := { db with
                   users := db.users ++
                     [{ id := newId, name := name, email := email,
                        password := password, role := role, isActive := true }] }
    if auditFails then
      (500, db1)
    else
      (201, { db1 with
                audit := db1.audit ++
                  [⟨.CREATE_USER, caller.id, caller.role, some newId⟩] })

/-- Outcome of `jwt.verify` on the bearer token, before any store access:
missing/malformed header, bad signature (`JsonWebTokenError`), expiry
(`TokenExpiredError`), or a decoded payload `{ id, role }`. -/
inductive TokenState where
  | malformed
  | invalidSig
  | expired
  | valid (id : Nat) (role : Role)
deriving DecidableEq, Repr

/-- `verifyToken` middleware (middleware/verifyToken.js): after the token
decodes, the account is re-loaded from the store; a missing account yields
401, a deactivated one 403; otherwise the principal is attached. -/
def verifyToken (tok : TokenState) (db : DB) : Except Nat Principal :=
  match tok with
  | .malformed => .error 401
  | .invalidSig => .error 401
  | .expired => .error 401
  | .valid id _ =>
    match findUser db id with
    | none => .error 401
    | some u =>
      if u.isActive = false then .error 403
      else .ok { id := u.id, name := u.name, email := u.email,
                 role := u.role, isActive := u.isActive }

/-- Route composition `router.use(verifyToken)` followed by a handler: on
middleware failure the handler never runs and the state is untouched. -/
def protect (tok : TokenState) (db : DB) (handler : Principal → DB → Nat × DB) :
    Nat × DB :=
  match verifyToken tok db with
  | .error s => (s, db)
  | .ok p => handler p db

/-- `canEditTransaction` middleware (middleware/roleMiddleware.js): returns
`some status` when the middleware responds itself, `none` for `next()`.
Note: it looks the transaction up WITHOUT the `isDeleted` filter. -/
def canEditTransaction (caller : Principal) (id : Nat) (db : DB) : Option Nat :=
  if caller.role == Role.master_admin then none
  else
    match db.txns.find? (fun t => t.id == id) with
    | none => some 404
    | some t => if t.createdBy != caller.id then some 403 else none

/-- A response that may carry transaction data in its body. -/
structure TxnResponse where
  status : Nat
  txn : Option Txn
deriving DecidableEq, Repr

/-- `Ledger.findByIdAndUpdate(id, { $inc: { balance: amt } })`. -/
def incBalance (ledgers : List Ledger) (id : Nat) (amt : Int) : List Ledger :=
  ledgers.map (fun l => if l.id == id then { l with balance := l.balance + amt } else l)

/-- `POST /api/transactions` — transactionController.createTransaction.
`newId`, `now` and `voucher` stand for the generated ObjectId, the clock,
and the pre-save voucher number. -/
def createTransaction (caller : Principal) (date : Option Nat)
    (debitLedger creditLedger : Nat) (amount : Int) (narration : String)
    (type : TxnType) (newId now : Nat) (voucher : String) (db : DB) :
    TxnResponse × DB :=
  if (findLedger db debitLedger).isNone then
    (⟨404, none⟩, db)
  else if (findLedger db creditLedger).isNone then
    (⟨404, none⟩, db)
  else
    let t : Txn :=
      { id := newId, date := date.getD now, voucherNumber := voucher,
        debitLedger := debitLedger, creditLedger := creditLedger,
        amount := amount, narration := narration, type := type,
        createdBy := caller.id, createdAt := now,
        isDeleted := false, deletedAt := none, deletedBy := none }
    let ledgers' := incBalance (incBalance db.ledgers debitLedger amount)
                      creditLedger amount
    (⟨201, some t⟩,
      { db with
          txns := db.txns ++ [t]
          ledgers := ledgers'
          audit := db.audit ++
            [⟨.CREATE_TRANSACTION, caller.id, caller.role, some newId⟩] })

/-- `Transaction.findOne({ _id: id, isDeleted: false })`. -/
def findLiveTxn (db : DB) (id : Nat) : Option Txn :=
  db.txns.find? (fun t => t.id == id && t.isDeleted == false)

/-- `GET /api/transactions/:id` — transactionController.getTransactionById
(read-only). -/
def getTransactionById (caller : Principal) (id : Nat) (db : DB) : TxnResponse :=
  match findLiveTxn db id with
  | none => ⟨404, none⟩
  | some t =>
    if caller.role != Role.master_admin && t.createdBy != caller.id then
      ⟨403, none⟩
    else
      ⟨200, some t⟩

/-- Partial body of `PUT /api/transactions/:id`. -/
structure TxnUpdateBody where
  date : Option Nat
  debitLedger : Option Nat
  creditLedger : Option Nat
  amount : Option Int
  narration : Option String
  type : Option TxnType
deriving DecidableEq, Repr

/-- Field merge of `updateTransaction`: `if (date) transaction.date = date;`
etc.; numeric truthiness makes a zero amount a no-op, string truthiness an
empty narration. -/
def applyTxnUpdate (t : Txn) (b : TxnUpdateBody) : Txn :=
  let t1 := match b.date with
    | some d => { t with date := d }
    | none => t
  let t2 := match b.debitLedger with
    | some dl => { t1 with debitLedger := dl }
    | none => t1
  let t3 := match b.creditLedger with
    | some cl => { t2 with creditLedger := cl }
    | none => t2
  let t4 := match b.amount with
    | some a => if a ≠ 0 then { t3 with amount := a } else t3
    | none => t3
  let t5 := match b.narration with
    | some n => if n ≠ "" then { t4 with narration := n } else t4
    | none => t4
  match b.type with
  | some ty => { t5 with type := ty }
  | none => t5

/-- Replace every transaction with the given id (ids are unique in Mongo). -/
def setTxn (txns : List Txn) (id : Nat) (t' : Txn) : List Txn :=
  txns.map (fun s => if s.id == id then t' else s)

/-- `PUT /api/transactions/:id` — transactionController.updateTransaction.
No ledger lookup and no balance adjustment occur here. -/
def updateTransaction (caller : Principal) (id : Nat) (b : TxnUpdateBody)
    (db : DB) : TxnResponse × DB :=
  match findLiveTxn db id with
  | none => (⟨404, none⟩, db)
  | some t =>
    if caller.role != Role.master_admin && t.createdBy != caller.id then
      (⟨403, none⟩, db)
    else
      let t' := applyTxnUpdate t b
      (⟨200, some t'⟩,
        { db with
            txns := setTxn db.txns id t'
            audit := db.audit ++
              [⟨.UPDATE_TRANSACTION, caller.id, caller.role, some id⟩] })

/-- `DELETE /api/transactions/:id` — transactionController.deleteTransaction
(soft delete). -/
def deleteTransaction (caller : Principal) (id now : Nat) (db : DB) :
    TxnResponse × DB :=
  match findLiveTxn db id with
  | none => (⟨404, none⟩, db)
  | some t =>
    if caller.role != Role.master_admin && t.createdBy != caller.id then
      (⟨403, none⟩, db)
    else
      let t' := { t with isDeleted := true, deletedAt := some now,
                         deletedBy := some caller.id }
      (⟨200, none⟩,
        { db with
            txns := setTxn db.txns id t'
            audit := db.audit ++
              [⟨.DELETE_TRANSACTION, caller.id, caller.role, some id⟩] })

/-- The transaction routes put `canEditTransaction` in front of the
update controller (routes/transactions.js). -/
def updateTransactionRoute (caller : Principal) (id : Nat) (b : TxnUpdateBody)
    (db : DB) : TxnResponse × DB :=
  match canEditTransaction caller id db with
  | some s => (⟨s, none⟩, db)
  | none => updateTransaction caller id b db

/-- The transaction routes put `canEditTransaction` in front of the
delete controller (routes/transactions.js). -/
def deleteTransactionRoute (caller : Principal) (id now : Nat) (db : DB) :
    TxnResponse × DB :=
  match canEditTransaction caller id db with
  | some s => (⟨s, none⟩, db)
  | none => deleteTransaction caller id now db

/-- Query filters of `GET /api/transactions` and of the stats aggregation:
`{ isDeleted: false }`, creator scoping for non-admins, optional date range
and type. -/
def matchesTxnQuery (caller : Principal) (startDate endDate : Option Nat)
    (type : Option TxnType) (t : Txn) : Bool :=
  t.isDeleted == false &&
  (caller.role == Role.master_admin || t.createdBy == caller.id) &&
  (match startDate with | some s => s ≤ t.date | none => true) &&
  (match endDate with | some e => t.date ≤ e | none => true) &&
  (match type with | some ty => t.type == ty | none => true)

/-- `.sort({ date: -1, createdAt: -1 })`: descending by date, then by
creation time (insertion sort; only the ordering matters here). -/
def txnSortLe (a b : Txn) : Bool :=
  b.date < a.date || (b.date == a.date && b.createdAt ≤ a.createdAt)

def insertTxnSorted (t : Txn) : List Txn → List Txn
  | [] => [t]
  | s :: rest => if txnSortLe t s then t :: s :: rest else s :: insertTxnSorted t rest

def sortTxns : List Txn → List Txn
  | [] => []
  | t :: rest => insertTxnSorted t (sortTxns rest)

/-- `GET /api/transactions` — transactionController.getAllTransactions
(read-only): filter, sort, paginate; also returns the total matched count. -/
def getAllTransactions (caller : Principal) (startDate endDate : Option Nat)
    (type : Option TxnType) (page limit : Nat) (db : DB) : List Txn × Nat :=
  let matched := db.txns.filter (matchesTxnQuery caller startDate endDate type)
  ((sortTxns matched).drop ((page - 1) * limit) |>.take limit, matched.length)

/-- Aggregate of `GET /api/transactions/stats`. -/
structure TxnStats where
  totalTransactions : Nat
  totalAmount : Int
deriving DecidableEq, Repr

/-- `GET /api/transactions/stats` — transactionController.getTransactionStats
(read-only): `$match` on the same filter (minus the type clause, which the
stats endpoint does not accept), then `$sum`/count. -/
def getTransactionStats (caller : Principal) (startDate endDate : Option Nat)
    (db : DB) : TxnStats :=
  let matched := db.txns.filter (matchesTxnQuery caller startDate endDate none)
  { totalTransactions := matched.length
    totalAmount := (matched.map Txn.amount).sum }

/-- Lower-cased view of a name, as a character list (ASCII case folding,
matching the `i` flag of the collision regex). -/
def lowerName (s : String) : List Char :=
  s.data.map Char.toLower

/-- ECMA-262 regex syntax characters — the characters that are NOT matched
literally when the ledger name is interpolated unescaped into
`new RegExp('^' + name + '$', 'i')` by `createLedger`. -/
def regexMeta (c : Char) : Bool :=
  c == '^' || c == '$' || c == '\\' || c == '.' || c == '*' || c == '+' ||
  c == '?' || c == '(' || c == ')' || c == '[' || c == ']' ||
  c == '{' || c == '}' || c == '|'

/-- A name that the interpolated regex treats as a plain literal. -/
def regexLiteral (s : String) : Bool :=
  s.data.all (fun c => !(regexMeta c))

/-- One atom of the compiled collision pattern: a character, optionally
followed by the `+` (one-or-more) quantifier. -/
structure RAtom where
  ch : Char
  rep : Bool
deriving DecidableEq, Repr

/-- Compilation of the interpolated name into the anchored pattern
`^name$`, for the fragment of ECMA-262 regexes the development reasons
about: literal characters and the `+` quantifier.  `none` stands for a
pattern outside this fragment: a dangling quantifier (such as a leading
`+`, or `a++`), where the `RegExp` constructor throws a SyntaxError, or a
name containing another syntax character, whose engine semantics this
embedding does not model (no theorem below exercises such a name). -/
def compilePat : List Char → Option (List RAtom)
  | [] => some []
  | [c] => if regexMeta c then none else some [⟨c, false⟩]
  | c :: r :: rest =>
    if regexMeta c then none
    else if r = '+' then (compilePat rest).map (fun as => ⟨c, true⟩ :: as)
    else (compilePat (r :: rest)).map (fun as => ⟨c, false⟩ :: as)

/-- Anchored case-insensitive matching of a target string against the
compiled pattern (the `i` flag folds case on both sides; `rep` atoms
consume one or more occurrences, with backtracking). -/
def matchAtoms : List Char → List RAtom → Bool
  | [], atoms => atoms.isEmpty
  | _ :: _, [] => false
  | c :: cs, a :: as =>
    if Char.toLower c == Char.toLower a.ch then
      (if a.rep then matchAtoms cs (a :: as) || matchAtoms cs as
       else matchAtoms cs as)
    else false

/-- The collision query of `createLedger`:
`Ledger.findOne({ name: new RegExp('^' + name + '$', 'i'), isActive: true })`
— the name interpolated unescaped into an anchored case-insensitive
regex, run over the active ledgers. -/
def activeNameCollision (db : DB) (atoms : List RAtom) : Bool :=
  db.ledgers.any (fun l => matchAtoms l.name.data atoms && l.isActive)

/-- Case-insensitive equality collision among active ledgers — the notion
of collision the spec asserts (stated over the store, for comparison with
the regex-based check the code performs). -/
def ciNameCollision (db : DB) (name : String) : Prop :=
  ∃ l ∈ db.ledgers, l.isActive = true ∧ lowerName l.name = lowerName name

instance ciNameCollisionDecidable (db : DB) (name : String) :
    Decidable (ciNameCollision db name) := by
  unfold ciNameCollision
  infer_instance

/-- `POST /api/ledgers` — ledgerController.createLedger.  The `none`
branch is the controller's `catch` (the `RegExp` constructor threw, or the
pattern is outside the modeled fragment — see `compilePat`). -/
def createLedger (caller : Principal) (name : String) (type : LedgerType)
    (balance : Int) (description : Option String) (newId : Nat) (db : DB) :
    Nat × DB :=
  match compilePat name.data with
  | none => (500, db)
  | some atoms =>
    if activeNameCollision db atoms then
      (409, db)
    else
      (201, { db with
                ledgers := db.ledgers ++
                  [{ id := newId, name := name, type := type, balance := balance,
                     description := description, createdBy := caller.id,
                     isActive := true }]
                audit := db.audit ++
                  [⟨.CREATE_LEDGER, caller.id, caller.role, some newId⟩] })

/-- Partial body of `PUT /api/ledgers/:id`. -/
structure LedgerUpdateBody where
  name : Option String
  type : Option LedgerType
  balance : Option Int
  description : Option String
deriving DecidableEq, Repr

/-- Field merge of `updateLedger` (`if (name) ...`, `if (type) ...`,
`if (typeof balance === 'number') ...`, `if (description !== undefined) ...`). -/
def applyLedgerUpdate (l : Ledger) (b : LedgerUpdateBody) : Ledger :=
  let l1 := match b.name with
    | some n => if n ≠ "" then { l with name := n } else l
    | none => l
  let l2 := match b.type with
    | some ty => { l1 with type := ty }
    | none => l1
  let l3 := match b.balance with
    | some bal => { l2 with balance := bal }
    | none => l2
  match b.description with
  | some d => { l3 with description := some d }
  | none => l3

/-- Replace every ledger with the given id (ids are unique in Mongo). -/
def setLedger (ledgers : List Ledger) (id : Nat) (l' : Ledger) : List Ledger :=
  ledgers.map (fun v => if v.id == id then l' else v)

/-- `PUT /api/ledgers/:id` — ledgerController.updateLedger.  Note: no name
collision check of any kind. -/
def updateLedger (caller : Principal) (id : Nat) (b : LedgerUpdateBody)
    (db : DB) : Nat × DB :=
  match findLedger db id with
  | none => (404, db)
  | some l =>
    let l' := applyLedgerUpdate l b
    (200, { db with
              ledgers := setLedger db.ledgers id l'
              audit := db.audit ++
                [⟨.UPDATE_LEDGER, caller.id, caller.role, some id⟩] })

/-- `Transaction.countDocuments({ $or: [{debitLedger: id}, {creditLedger: id}],
isDeleted: false })`. -/
def referencingTxnCount (db : DB) (id : Nat) : Nat :=
  (db.txns.filter
    (fun t => (t.debitLedger == id || t.creditLedger == id) &&
              t.isDeleted == false)).length

/-- `DELETE /api/ledgers/:id` — ledgerController.deleteLedger.  When any
non-deleted transaction references the ledger, the controller responds
`res.status(400)` ("Cannot delete ledger. It has N transaction(s)."). -/
def deleteLedger (caller : Principal) (id : Nat) (db : DB) : Nat × DB :=
  match findLedger db id with
  | none => (404, db)
  | some l =>
    if 0 < referencingTxnCount db id then
      (400, db)
    else
      (200, { db with
                ledgers := setLedger db.ledgers id { l with isActive := false }
                audit := db.audit ++
                  [⟨.DELETE_LEDGER, caller.id, caller.role, some id⟩] })

/-- The `logAction` middleware (middleware/auditLog.js) wraps `res.json`:
the audit insert's rejection is consumed by `.catch(console.error)`, so the
response passes through unchanged whether or not the insert succeeds. -/
def logActionWrap (auditFails : Bool) (resp : Nat) (entry : AuditEntry)
    (db : DB) : Nat × DB :=
  if auditFails then (resp, db)
  else (resp, { db with audit := db.audit ++ [entry] })

/-- A sequence of `register` calls run back to back (each request's
parameters bundled together). -/
structure RegisterReq where
  caller : Principal
  name : String
  email : String
  password : String
  role : Role
  newId : Nat
  auditFails : Bool
deriving Repr

def runRegisters (reqs : List RegisterReq) (db : DB) : DB :=
  reqs.foldl
    (fun d r =>
      (register r.caller r.name r.email r.password r.role r.newId r.auditFails d).2)
    db

/-- Case-insensitive uniqueness of names among active ledgers (§3 of the
spec, stated over the store). -/
def activeNamesUnique (db : DB) : Prop :=
  ((db.ledgers.filter (fun l => l.isActive)).map (fun l => lowerName l.name)).Nodup

instance activeNamesUniqueDecidable (db : DB) : Decidable (activeNamesUnique db) :=
  List.nodupDecidable _

section Fixtures

/-- Seeded master admin used in concrete runs. -/
def exAdmin : Account :=
  { id := 1, name := "A", email := "a@x", password := "h",
    role := Role.master_admin, isActive := true }

def exAdminP : Principal :=
  { id := 1, name := "A", email := "a@x", role := Role.master_admin, isActive := true }

def exUser2 : Account :=
  { id := 2, name := "B", email := "b@x", password := "h",
    role := Role.user, isActive := true }

def exUser3 : Account :=
  { id := 3, name := "C", email := "c@x", password := "h",
    role := Role.user, isActive := true }

def exUser4 : Account :=
  { id := 4, name := "D", email := "d@x", password := "h",
    role := Role.user, isActive := true }

def exUserP2 : Principal :=
  { id := 2, name := "B", email := "b@x", role := Role.user, isActive := true }

def exUserP3 : Principal :=
  { id := 3, name := "C", email := "c@x", role := Role.user, isActive := true }

def exCash : Ledger :=
  { id := 1, name := "Cash", type := LedgerType.asset, balance := 0,
    description := none, createdBy := 1, isActive := true }

def exBank : Ledger :=
  { id := 2, name := "Bank", type := LedgerType.asset, balance := 0,
    description := none, createdBy := 1, isActive := true }

/-- A live transaction created by user 2, moving 50 between ledgers 1 and 2. -/
def exTxn : Txn :=
  { id := 1, date := 10, voucherNumber := "V1", debitLedger := 1,
    creditLedger := 2, amount := 50, narration := "n", type := TxnType.payment,
    createdBy := 2, createdAt := 10, isDeleted := false,
    deletedAt := none, deletedBy := none }

/-- Store holding just the master admin. -/
def exDBadmin : DB := { users := [exAdmin], ledgers := [], txns := [], audit := [] }

/-- Store with the admin, two users (one deactivated), two ledgers and one
live transaction. -/
def exDBtxn : DB :=
  { users := [exAdmin, exUser2, exUser3]
    ledgers := [exCash, exBank]
    txns := [exTxn]
    audit := [] }

/-- Store at the user cap: three accounts of role `user`. -/
def exDBfull : DB :=
  { users := [exAdmin, exUser2, exUser3, exUser4], ledgers := [], txns := [], audit := [] }

/-- Store whose only transaction (referencing both ledgers) is soft-deleted. -/
def exDBdeletedTxn : DB :=
  { users := [exAdmin, exUser2, exUser3]
    ledgers := [exCash, exBank]
    txns := [{ exTxn with isDeleted := true, deletedAt := some 11, deletedBy := some 2 }]
    audit := [] }

/-- Store holding one active ledger whose name contains a regex
metacharacter. -/
def exDBplus : DB :=
  { users := [exAdmin, exUser2]
    ledgers := [{ id := 1, name := "A+B", type := LedgerType.asset, balance := 0,
                  description := none, createdBy := 1, isActive := true }]
    txns := []
    audit := [] }

/-- Store with a deactivated user account (id 2), for the freshness claim. -/
def exDBinactive : DB :=
  { users := [exAdmin, { exUser2 with isActive := false }],
    ledgers := [], txns := [], audit := [] }

end Fixtures

section Lemmas

/-- Variant of `List.find?_cons_of_pos` taking the predicate explicitly. -/
theorem find?_cons_pos {α : Type} (p : α → Bool) (a : α) (l : List α)
    (h : p a = true) : (a :: l).find? p = some a :=
  List.find?_cons_of_pos l h

/-- Variant of `List.find?_cons_of_neg` taking the predicate explicitly. -/
theorem find?_cons_neg {α : Type} (p : α → Bool) (a : α) (l : List α)
    (h : p a = false) : (a :: l).find? p = l.find? p :=
  List.find?_cons_of_neg l (by simp [h])

/-- Replacing the entries keyed `id` by `x'` (with `key x' = id`) makes the
keyed lookup return `x'`, provided it previously succeeded. -/
theorem find?_replace_eq {α : Type} (key : α → Nat) (l : List α) (id : Nat)
    (x' x : α) (h : l.find? (fun v => key v == id) = some x) (hid : key x' = id) :
    (l.map (fun v => if key v == id then x' else v)).find? (fun v => key v == id) =
      some x' := by
  induction l with
  | nil => simp at h
  | cons hd tl ih =>
    rw [List.map_cons]
    by_cases hk : key hd = id
    · have hkb : (key hd == id) = true := by simp [hk]
      rw [if_pos hkb, find?_cons_pos (fun v => key v == id) x' _ (by simp [hid])]
    · have hkb : (key hd == id) = false := by simp [hk]
      rw [if_neg (by simp [hkb]), find?_cons_neg (fun v => key v == id) hd _ hkb]
      rw [find?_cons_neg (fun v => key v == id) hd _ hkb] at h
      exact ih h

/-- Replacing the entries keyed `id` leaves lookups at a different key
unchanged, provided the replacement itself carries key `id`. -/
theorem find?_replace_ne {α : Type} (key : α → Nat) (l : List α) (id j : Nat)
    (x' : α) (hid : key x' = id) (hne : j ≠ id) :
    (l.map (fun v => if key v == id then x' else v)).find? (fun v => key v == j) =
      l.find? (fun v => key v == j) := by
  induction l with
  | nil => simp
  | cons hd tl ih =>
    rw [List.map_cons]
    by_cases hk : key hd = id
    · have hkb : (key hd == id) = true := by simp [hk]
      have h1 : (key x' == j) = false := by
        simp [hid]; exact fun hq => hne hq.symm
      have h2 : (key hd == j) = false := by
        simp [hk]; exact fun hq => hne hq.symm
      rw [if_pos hkb, find?_cons_neg (fun v => key v == j) x' _ h1,
        find?_cons_neg (fun v => key v == j) hd _ h2]
      exact ih
    · have hkb : (key hd == id) = false := by simp [hk]
      by_cases hj : key hd = j
      · have hjb : (key hd == j) = true := by simp [hj]
        rw [if_neg (by simp [hkb]), find?_cons_pos (fun v => key v == j) hd _ hjb,
          find?_cons_pos (fun v => key v == j) hd _ hjb]
      · have hjb : (key hd == j) = false := by simp [hj]
        rw [if_neg (by simp [hkb]), find?_cons_neg (fun v => key v == j) hd _ hjb,
          find?_cons_neg (fun v => key v == j) hd _ hjb]
        exact ih

/-- Membership in a keyed replacement: an element is either the replacement
or an original element whose key differs from `id`. -/
theorem mem_replace {α : Type} (key : α → Nat) (l : List α) (id : Nat)
    (x' s : α) (hs : s ∈ l.map (fun v => if key v == id then x' else v)) :
    s = x' ∨ (s ∈ l ∧ (key s == id) = false) := by
  obtain ⟨v, hv, hfv⟩ := List.mem_map.mp hs
  by_cases hk : (key v == id) = true
  · left
    simp [hk] at hfv
    exact hfv.symm
  · right
    simp only [Bool.not_eq_true] at hk
    simp [hk] at hfv
    subst hfv
    exact ⟨hv, hk⟩

/-- With pairwise distinct keys, a `find?` whose predicate holds at `x` and
forces the key of `x` returns exactly `x`. -/
theorem find?_of_mem_nodup {α : Type} (key : α → Nat) (p : α → Bool)
    (l : List α) (x : α) (hmem : x ∈ l) (hnd : (l.map key).Nodup)
    (hpx : p x = true) (hkey : ∀ v, p v = true → key v = key x) :
    l.find? p = some x := by
  induction l with
  | nil => simp at hmem
  | cons hd tl ih =>
    simp only [List.map_cons, List.nodup_cons] at hnd
    rcases List.mem_cons.mp hmem with hx | hx
    · subst hx
      simp [List.find?_cons, hpx]
    · have hphd : p hd = false := by
        by_contra hc
        simp only [Bool.not_eq_false] at hc
        have : key hd = key x := hkey hd hc
        exact hnd.1 (this ▸ List.mem_map_of_mem key hx)
      simp [List.find?_cons, hphd]
      exact ih hx hnd.2

/-- `incBalance` commutes with keyed lookup: the found ledger is bumped
exactly when its id matches. -/
theorem findLedger_incBalance (ls : List Ledger) (id j : Nat) (amt : Int) :
    (incBalance ls id amt).find? (fun l => l.id == j) =
      (ls.find? (fun l => l.id == j)).map
        (fun l => if l.id == id then { l with balance := l.balance + amt } else l) := by
  induction ls with
  | nil => simp [incBalance]
  | cons hd tl ih =>
    have hcons : incBalance (hd :: tl) id amt =
        (if hd.id == id then { hd with balance := hd.balance + amt } else hd) ::
          incBalance tl id amt := rfl
    rw [hcons]
    by_cases hk : hd.id = id
    · have hkb : (hd.id == id) = true := by simp [hk]
      rw [if_pos hkb]
      by_cases hj : hd.id = j
      · have hjb : (hd.id == j) = true := by simp [hj]
        rw [find?_cons_pos (fun l : Ledger => l.id == j)
              { hd with balance := hd.balance + amt } (incBalance tl id amt) hjb,
          find?_cons_pos (fun l : Ledger => l.id == j) hd tl hjb]
        simp [hk]
      · have hjb : (hd.id == j) = false := by simp [hj]
        rw [find?_cons_neg (fun l : Ledger => l.id == j)
              { hd with balance := hd.balance + amt } (incBalance tl id amt) hjb,
          find?_cons_neg (fun l : Ledger => l.id == j) hd tl hjb]
        exact ih
    · have hkb : (hd.id == id) = false := by simp [hk]
      rw [if_neg (by simp [hkb])]
      by_cases hj : hd.id = j
      · have hjb : (hd.id == j) = true := by simp [hj]
        rw [find?_cons_pos (fun l : Ledger => l.id == j) hd (incBalance tl id amt) hjb,
          find?_cons_pos (fun l : Ledger => l.id == j) hd tl hjb]
        simp [hk]
      · have hjb : (hd.id == j) = false := by simp [hj]
        rw [find?_cons_neg (fun l : Ledger => l.id == j) hd (incBalance tl id amt) hjb,
          find?_cons_neg (fun l : Ledger => l.id == j) hd tl hjb]
        exact ih

theorem mem_insertTxnSorted (t s : Txn) (l : List Txn) :
    s ∈ insertTxnSorted t l ↔ s = t ∨ s ∈ l := by
  induction l with
  | nil => simp [insertTxnSorted]
  | cons hd tl ih =>
    by_cases h : txnSortLe t hd
    · simp [insertTxnSorted, h, List.mem_cons]
    · simp [insertTxnSorted, h, List.mem_cons, ih]
      tauto

theorem mem_sortTxns (s : Txn) (l : List Txn) : s ∈ sortTxns l ↔ s ∈ l := by
  induction l with
  | nil => simp [sortTxns]
  | cons hd tl ih => simp [sortTxns, mem_insertTxnSorted, ih, List.mem_cons]

/-- The field merge of `updateUser` never touches the id or the role. -/
theorem applyUserUpdate_fields (u : Account) (body : UserUpdateBody) :
    (applyUserUpdate u body).id = u.id ∧ (applyUserUpdate u body).role = u.role := by
  rcases body with ⟨bn, be, ba, br⟩
  rcases bn with _ | n <;> rcases be with _ | e <;> rcases ba with _ | a <;>
    simp only [applyUserUpdate] <;> (try split_ifs) <;> simp

/-- With pairwise distinct ids, the live lookup finds a stored non-deleted
transaction. -/
theorem findLiveTxn_of_mem (db : DB) (t : Txn) (hmem : t ∈ db.txns)
    (hnd : (db.txns.map Txn.id).Nodup) (hlive : t.isDeleted = false) :
    findLiveTxn db t.id = some t := by
  unfold findLiveTxn
  exact find?_of_mem_nodup Txn.id (fun s => s.id == t.id && s.isDeleted == false)
    db.txns t hmem hnd (by simp [hlive])
    (fun v hv => by
      have hv' := (Bool.and_eq_true _ _).mp hv
      simpa using hv'.1)

/-- With pairwise distinct ids, the id-only lookup (used by the
`canEditTransaction` middleware) finds a stored transaction. -/
theorem findTxnById_of_mem (db : DB) (t : Txn) (hmem : t ∈ db.txns)
    (hnd : (db.txns.map Txn.id).Nodup) :
    db.txns.find? (fun s => s.id == t.id) = some t :=
  find?_of_mem_nodup Txn.id (fun s => s.id == t.id) db.txns t hmem hnd
    (by simp) (fun v hv => by simpa using hv)

/-- The field merge of `updateTransaction` installs a requested debit
ledger reference verbatim, with no existence check. -/
theorem applyTxnUpdate_debit (t : Txn) (b : TxnUpdateBody) (d : Nat)
    (h : b.debitLedger = some d) : (applyTxnUpdate t b).debitLedger = d := by
  rcases b with ⟨bd, bdl, bcl, ba, bn, bt⟩
  simp only [] at h
  subst h
  cases bd <;> cases bcl <;> cases ba <;> cases bn <;> cases bt <;>
    simp only [applyTxnUpdate] <;> (try split_ifs) <;> simp

/-- The field merge of `updateTransaction` installs a requested credit
ledger reference verbatim, with no existence check. -/
theorem applyTxnUpdate_credit (t : Txn) (b : TxnUpdateBody) (c : Nat)
    (h : b.creditLedger = some c) : (applyTxnUpdate t b).creditLedger = c := by
  rcases b with ⟨bd, bdl, bcl, ba, bn, bt⟩
  simp only [] at h
  subst h
  cases bd <;> cases bdl <;> cases ba <;> cases bn <;> cases bt <;>
    simp only [applyTxnUpdate] <;> (try split_ifs) <;> simp

/-- One `register` call keeps the user-role account count at or below 3. -/
theorem countUserRole_register (db : DB) (caller : Principal)
    (n e p : String) (role : Role) (newId : Nat) (f : Bool)
    (h : countUserRole db ≤ 3) :
    countUserRole (register caller n e p role newId f db).2 ≤ 3 := by
  by_cases h1 : (db.users.any (fun u => u.email == e)) = true
  · simpa [register, h1] using h
  · cases role with
    | master_admin =>
      have heq : countUserRole (register caller n e p Role.master_admin newId f db).2 =
          countUserRole db := by
        by_cases hf : f = true <;>
          simp [register, h1, hf, countUserRole, List.filter_append]
      rw [heq]
      exact h
    | user =>
      by_cases h3 : 3 ≤ countUserRole db
      · simpa [register, h1, h3] using h
      · have heq : countUserRole (register caller n e p Role.user newId f db).2 =
            countUserRole db + 1 := by
          have h3' : ¬ 3 ≤ (List.filter (fun u => u.role == Role.user) db.users).length := h3
          by_cases hf : f = true <;>
            simp [register, h1, h3, h3', hf, countUserRole, List.filter_append]
        rw [heq]
        omega

/-- A whole sequence of `register` calls keeps the user-role account count
at or below 3. -/
theorem countUserRole_runRegisters (reqs : List RegisterReq) :
    ∀ db : DB, countUserRole db ≤ 3 →
      countUserRole (runRegisters reqs db) ≤ 3 := by
  induction reqs with
  | nil => intro db h; simpa [runRegisters] using h
  | cons r rest ih =>
    intro db h
    have hstep := countUserRole_register db r.caller r.name r.email r.password
      r.role r.newId r.auditFails h
    exact ih _ hstep

/-- Two members of a list with pairwise distinct keys and equal keys are
equal. -/
theorem eq_of_mem_of_key_eq {α : Type} (key : α → Nat) (l : List α) (s t : α)
    (hs : s ∈ l) (ht : t ∈ l) (hnd : (l.map key).Nodup) (hk : key s = key t) :
    s = t := by
  induction l with
  | nil => simp at hs
  | cons hd tl ih =>
    simp only [List.map_cons, List.nodup_cons] at hnd
    rcases List.mem_cons.mp hs with rfl | hs' <;>
      rcases List.mem_cons.mp ht with rfl | ht'
    · rfl
    · exact absurd (hk ▸ List.mem_map_of_mem key ht') hnd.1
    · exact absurd (hk ▸ List.mem_map_of_mem key hs') hnd.1
    · exact ih hs' ht' hnd.2

/-- A metacharacter-free name compiles to the list of its characters as
plain atoms. -/
theorem compilePat_literal : ∀ cs : List Char,
    cs.all (fun c => !(regexMeta c)) = true →
    compilePat cs = some (cs.map (fun c => ⟨c, false⟩))
  | [], _ => rfl
  | [c], h => by
    simp only [List.all_cons, List.all_nil, Bool.and_true, Bool.not_eq_true'] at h
    simp [compilePat, h]
  | c :: r :: rest, h => by
    simp only [List.all_cons, Bool.and_eq_true, Bool.not_eq_true'] at h
    have hr' : ¬ (r = '+') := by
      intro hr
      subst hr
      exact absurd h.2.1 (by decide)
    have hrec := compilePat_literal (r :: rest) (by
      simp only [List.all_cons, Bool.and_eq_true, Bool.not_eq_true']
      exact ⟨h.2.1, h.2.2⟩)
    simp [compilePat, h.1, hr', hrec]

/-- On plain atoms the anchored case-insensitive match is exactly
case-insensitive equality of the two strings. -/
theorem matchAtoms_literal (t cs : List Char) :
    matchAtoms t (cs.map (fun c => ⟨c, false⟩)) = true ↔
      t.map Char.toLower = cs.map Char.toLower := by
  induction t generalizing cs with
  | nil => cases cs <;> simp [matchAtoms]
  | cons c ts ih =>
    cases cs with
    | nil => simp [matchAtoms]
    | cons a as' =>
      by_cases hca : Char.toLower c = Char.toLower a
      · simp [matchAtoms, hca, ih]
      · simp [matchAtoms, hca]

/-- Deactivating one ledger entry shrinks the active slice of the store:
the filtered-active list of the result is a sublist of the original one. -/
theorem filter_setInactive_sublist (ls : List Ledger) (id : Nat) (l' : Ledger)
    (hl' : l'.isActive = false) :
    ((setLedger ls id l').filter (fun v => v.isActive)).Sublist
      (ls.filter (fun v => v.isActive)) := by
  induction ls with
  | nil => simp [setLedger]
  | cons hd tl ih =>
    have hcons : setLedger (hd :: tl) id l' =
        (if hd.id == id then l' else hd) :: setLedger tl id l' := rfl
    rw [hcons, List.filter_cons, List.filter_cons]
    by_cases hk : (hd.id == id) = true
    · rw [if_pos hk]
      rw [if_neg (by simp [hl'])]
      cases hhd : hd.isActive
      · rw [if_neg (by simp [hhd])]
        exact ih
      · rw [if_pos (by simp [hhd])]
        exact ih.cons hd
    · rw [if_neg hk]
      cases hhd : hd.isActive
      · rw [if_neg (by simp [hhd]), if_neg (by simp [hhd])]
        exact ih
      · rw [if_pos (by simp [hhd]), if_pos (by simp [hhd])]
        exact ih.cons₂ hd

end Lemmas

section Claims

/-- C1, counterexample: on the store holding only the master admin (id 1),
`PUT /api/users/1` with body `{ isActive: false }` succeeds with 200 and
leaves the master-admin account deactivated — the claim that every
operation deactivating a master_admin fails with Forbidden is false. -/
theorem updateUser_deactivates_master_admin :
    (updateUser exAdminP 1 ⟨none, none, some false, none⟩ exDBadmin).1 = 200 ∧
    findUser (updateUser exAdminP 1 ⟨none, none, some false, none⟩ exDBadmin).2 1 =
      some { exAdmin with isActive := false } := by
  decide

/-- C1, amended: for a master_admin target, `deactivateUser` and `deleteUser`
always fail with 403 and leave the store unchanged, and `updateUser` rejects
any requested role change with 403; moreover `updateUser` never changes a
master_admin's role (it never writes the role field at all).  However
`updateUser` with `{ isActive: false }` is not blocked (see the
counterexample). -/
theorem master_admin_protection (db : DB) (caller : Principal) (id : Nat)
    (u : Account) (body : UserUpdateBody)
    (hu : findUser db id = some u) (hrole : u.role = Role.master_admin) :
    deactivateUser caller id db = (403, db) ∧
    deleteUser caller id db = (403, db) ∧
    (wantsRoleChange body = true → updateUser caller id body db = (403, db)) ∧
    (∀ u', findUser (updateUser caller id body db).2 id = some u' →
      u'.role = Role.master_admin) := by
  have hrb : (u.role == Role.master_admin) = true := by simp [hrole]
  refine ⟨?_, ?_, ?_, ?_⟩
  · simp [deactivateUser, hu, hrb]
  · simp [deleteUser, hu, hrb]
  · intro hw
    simp [updateUser, hu, hrb, hw]
  · intro u' h'
    by_cases hw : wantsRoleChange body = true
    · have h2 : updateUser caller id body db = (403, db) := by
        simp [updateUser, hu, hrb, hw]
      rw [h2] at h'
      have : u = u' := Option.some.inj (hu.symm.trans h')
      rw [← this]
      exact hrole
    · have hwb : wantsRoleChange body = false := by
        simpa using hw
      have h2 : updateUser caller id body db =
          (200, { db with
                    users := setUser db.users id (applyUserUpdate u body)
                    audit := db.audit ++
                      [⟨.UPDATE_USER, caller.id, caller.role, some id⟩] }) := by
        simp [updateUser, hu, hwb]
      have huid : u.id = id := by simpa using List.find?_some hu
      have happ' := find?_replace_eq Account.id db.users id (applyUserUpdate u body)
        u hu ((applyUserUpdate_fields u body).1.trans huid)
      have happ : (setUser db.users id (applyUserUpdate u body)).find?
          (fun v => v.id == id) = some (applyUserUpdate u body) := happ'
      rw [h2] at h'
      have h3 : some (applyUserUpdate u body) = some u' := happ.symm.trans h'
      rw [← Option.some.inj h3]
      exact (applyUserUpdate_fields u body).2.trans hrole

/-- C1, witness for the amended theorem at a concrete store. -/
theorem master_admin_protection_witness :
    deactivateUser exUserP2 1 exDBadmin = (403, exDBadmin) ∧
    deleteUser exUserP2 1 exDBadmin = (403, exDBadmin) ∧
    updateUser exUserP2 1 ⟨none, none, none, some Role.user⟩ exDBadmin =
      (403, exDBadmin) := by
  have h := master_admin_protection exDBadmin exUserP2 1 exAdmin
    ⟨none, none, none, some Role.user⟩ (by decide) (by decide)
  exact ⟨h.1, h.2.1, h.2.2.1 (by decide)⟩

/-- C8, counterexample: on the admin-only store, a successful `User.create`
followed by a failing inline audit write makes `register` answer 500, not
the 201 success response, even though the new account was persisted — so
an audit failure does change the result seen by the caller. -/
theorem register_audit_failure_changes_response :
    (register exAdminP "U" "u@x" "pw" Role.user 9 true exDBadmin).1 = 500 ∧
    (register exAdminP "U" "u@x" "pw" Role.user 9 false exDBadmin).1 = 201 ∧
    findUser (register exAdminP "U" "u@x" "pw" Role.user 9 true exDBadmin).2 9 ≠
      none := by
  decide

/-- C8, amended: a failing audit write never rolls back the primary state
change (`register`'s stored users are identical whether or not the audit
insert fails), and the `logAction` response wrapper swallows the failure,
returning the response unchanged; but in the controllers the inline awaited
audit write's rejection is caught by the generic handler, which turns a
201 success into a 500 response. -/
theorem audit_write_never_rolls_back (caller : Principal) (n e p : String)
    (role : Role) (newId : Nat) (db : DB) (f : Bool) (resp : Nat)
    (entry : AuditEntry) :
    (register caller n e p role newId true db).2.users =
      (register caller n e p role newId false db).2.users ∧
    ((register caller n e p role newId false db).1 = 201 →
      (register caller n e p role newId true db).1 = 500) ∧
    (logActionWrap f resp entry db).1 = resp := by
  refine ⟨?_, ?_, ?_⟩
  · by_cases h1 : (db.users.any (fun u => u.email == e)) = true
    · simp [register, h1]
    · by_cases h2 : (role == Role.user && decide (3 ≤ countUserRole db)) = true
      · simp [register, h1, h2]
      · simp [register, h1, h2]
  · intro h
    by_cases h1 : (db.users.any (fun u => u.email == e)) = true
    · simp [register, h1] at h
    · by_cases h2 : (role == Role.user && decide (3 ≤ countUserRole db)) = true
      · simp [register, h1, h2] at h
      · simp [register, h1, h2]
  · by_cases hf : f = true <;> simp [logActionWrap, hf]

/-- C8, witness for the amended theorem at a concrete store. -/
theorem audit_write_never_rolls_back_witness :
    (register exAdminP "U" "u@x" "pw" Role.user 9 true exDBadmin).2.users =
      (register exAdminP "U" "u@x" "pw" Role.user 9 false exDBadmin).2.users ∧
    (register exAdminP "U" "u@x" "pw" Role.user 9 true exDBadmin).1 = 500 ∧
    (logActionWrap true 200 ⟨.LOGIN, 1, Role.master_admin, none⟩ exDBadmin).1 =
      200 := by
  have h := audit_write_never_rolls_back exAdminP "U" "u@x" "pw" Role.user 9
    exDBadmin true 200 ⟨.LOGIN, 1, Role.master_admin, none⟩
  exact ⟨h.1, h.2.1 (by decide), h.2.2⟩

/-- C9: under a token that verifies and decodes to account id `id`, the
authentication middleware answers 401 when the account no longer exists and
403 when it exists but is deactivated — in both cases for EVERY downstream
handler, which therefore never runs, and with the store untouched. -/
theorem stale_token_rejected (db : DB) (id : Nat) (role : Role)
    (handler : Principal → DB → Nat × DB) :
    (findUser db id = none →
      protect (TokenState.valid id role) db handler = (401, db)) ∧
    (∀ u, findUser db id = some u → u.isActive = false →
      protect (TokenState.valid id role) db handler = (403, db)) := by
  constructor
  · intro h
    simp [protect, verifyToken, h]
  · intro u hu hi
    simp [protect, verifyToken, hu, hi]

/-- C9, witness: a token for the deleted account 9 yields 401 and a token
for the deactivated account 2 yields 403, on a concrete store. -/
theorem stale_token_rejected_witness :
    protect (TokenState.valid 9 Role.user) exDBinactive (fun _ d => (200, d)) =
      (401, exDBinactive) ∧
    protect (TokenState.valid 2 Role.user) exDBinactive (fun _ d => (200, d)) =
      (403, exDBinactive) := by
  have h9 := stale_token_rejected exDBinactive 9 Role.user (fun _ d => (200, d))
  have h2 := stale_token_rejected exDBinactive 2 Role.user (fun _ d => (200, d))
  exact ⟨h9.1 (by decide),
    h2.2 { exUser2 with isActive := false } (by decide) (by decide)⟩

/-- C3: starting from a store with at most 3 user-role accounts, no
sequence of `register` calls ever brings the count above 3; and whenever 3
(or more) user-role accounts already exist, a further `register` with
role=user and a fresh email fails with 403 Forbidden and changes nothing. -/
theorem user_cap (db : DB) (hcap : countUserRole db ≤ 3) :
    (∀ reqs : List RegisterReq, countUserRole (runRegisters reqs db) ≤ 3) ∧
    (∀ (caller : Principal) (n e p : String) (newId : Nat) (f : Bool),
      3 ≤ countUserRole db →
      (db.users.any (fun u => u.email == e)) = false →
      register caller n e p Role.user newId f db = (403, db)) := by
  constructor
  · intro reqs
    exact countUserRole_runRegisters reqs db hcap
  · intro caller n e p newId f h3 hemail
    simp [register, hemail, h3]

/-- C3, witness: on the store already holding three user-role accounts, a
further registration sequence stays at 3 and a fourth role=user create is
rejected with 403. -/
theorem user_cap_witness :
    countUserRole (runRegisters
      [⟨exAdminP, "E", "e@x", "pw", Role.user, 9, false⟩] exDBfull) ≤ 3 ∧
    register exAdminP "E" "e@x" "pw" Role.user 9 false exDBfull =
      (403, exDBfull) := by
  have h := user_cap exDBfull (by decide)
  exact ⟨h.1 [⟨exAdminP, "E", "e@x", "pw", Role.user, 9, false⟩],
    h.2 exAdminP "E" "e@x" "pw" 9 false (by decide) (by decide)⟩

/-- C10: for an existing non-deleted transaction and a caller passing the
ownership check, `updateTransaction` succeeds with 200 for EVERY partial
body — including debit/credit ledger ids that resolve to no stored ledger
(no NotFound, unlike create) — the updated record carries the requested
ledger references verbatim, and the ledger collection (hence every
balance) is untouched. -/
theorem updateTransaction_skips_ledger_check (db : DB) (caller : Principal)
    (t : Txn) (b : TxnUpdateBody)
    (hmem : t ∈ db.txns) (hnd : (db.txns.map Txn.id).Nodup)
    (hlive : t.isDeleted = false)
    (hperm : caller.role = Role.master_admin ∨ t.createdBy = caller.id) :
    (updateTransaction caller t.id b db).1.status = 200 ∧
    (updateTransaction caller t.id b db).1.txn = some (applyTxnUpdate t b) ∧
    (updateTransaction caller t.id b db).2.ledgers = db.ledgers ∧
    (∀ d, b.debitLedger = some d →
      ((updateTransaction caller t.id b db).1.txn.map Txn.debitLedger) = some d) ∧
    (∀ c, b.creditLedger = some c →
      ((updateTransaction caller t.id b db).1.txn.map Txn.creditLedger) = some c) := by
  have hfind := findLiveTxn_of_mem db t hmem hnd hlive
  have hguard : (caller.role != Role.master_admin && t.createdBy != caller.id) = false := by
    rcases hperm with h | h <;> simp [h]
  refine ⟨?_, ?_, ?_, ?_, ?_⟩
  · simp [updateTransaction, hfind, hguard]
  · simp [updateTransaction, hfind, hguard]
  · simp [updateTransaction, hfind, hguard]
  · intro d hd
    simp [updateTransaction, hfind, hguard, applyTxnUpdate_debit t b d hd]
  · intro c hc
    simp [updateTransaction, hfind, hguard, applyTxnUpdate_credit t b c hc]

/-- C10, witness: user 2 updates their own transaction to reference the
nonexistent ledgers 98 and 99; the update succeeds and the ledger
collection is unchanged. -/
theorem updateTransaction_skips_ledger_check_witness :
    (updateTransaction exUserP2 1 ⟨none, some 99, some 98, none, none, none⟩
      exDBtxn).1.status = 200 ∧
    (updateTransaction exUserP2 1 ⟨none, some 99, some 98, none, none, none⟩
      exDBtxn).2.ledgers = exDBtxn.ledgers ∧
    ((updateTransaction exUserP2 1 ⟨none, some 99, some 98, none, none, none⟩
      exDBtxn).1.txn.map Txn.debitLedger) = some 99 ∧
    findLedger exDBtxn 99 = none := by
  have h := updateTransaction_skips_ledger_check exDBtxn exUserP2 exTxn
    ⟨none, some 99, some 98, none, none, none⟩ (by decide) (by decide)
    (by decide) (Or.inr (by decide))
  exact ⟨h.1, h.2.2.1, h.2.2.2.1 99 (by decide), by decide⟩

/-- C2: a successful transaction creation against two distinct existing
ledgers leaves the debit and the credit ledger each exactly `amount`
higher, and every other ledger's entry untouched. -/
theorem createTransaction_balances (db : DB) (caller : Principal)
    (date : Option Nat) (debit credit : Nat) (amount : Int) (narr : String)
    (ty : TxnType) (newId now : Nat) (voucher : String) (D C : Ledger)
    (hD : findLedger db debit = some D) (hC : findLedger db credit = some C)
    (hne : debit ≠ credit) :
    (createTransaction caller date debit credit amount narr ty newId now
      voucher db).1.status = 201 ∧
    findLedger (createTransaction caller date debit credit amount narr ty newId
      now voucher db).2 debit = some { D with balance := D.balance + amount } ∧
    findLedger (createTransaction caller date debit credit amount narr ty newId
      now voucher db).2 credit = some { C with balance := C.balance + amount } ∧
    (∀ j, j ≠ debit → j ≠ credit →
      findLedger (createTransaction caller date debit credit amount narr ty
        newId now voucher db).2 j = findLedger db j) := by
  have hDid : D.id = debit := by simpa using List.find?_some hD
  have hCid : C.id = credit := by simpa using List.find?_some hC
  have hledgers : (createTransaction caller date debit credit amount narr ty
      newId now voucher db).2.ledgers =
      incBalance (incBalance db.ledgers debit amount) credit amount := by
    simp [createTransaction, hD, hC]
  refine ⟨?_, ?_, ?_, ?_⟩
  · simp [createTransaction, hD, hC]
  · unfold findLedger
    rw [hledgers,
      findLedger_incBalance (incBalance db.ledgers debit amount) credit debit amount,
      findLedger_incBalance db.ledgers debit debit amount]
    have hDfind : db.ledgers.find? (fun l => l.id == debit) = some D := hD
    rw [hDfind]
    simp [hDid, hne]
  · unfold findLedger
    rw [hledgers,
      findLedger_incBalance (incBalance db.ledgers debit amount) credit credit amount,
      findLedger_incBalance db.ledgers debit credit amount]
    have hCfind : db.ledgers.find? (fun l => l.id == credit) = some C := hC
    have hne' : credit ≠ debit := fun h => hne h.symm
    rw [hCfind]
    simp [hCid, hne']
  · intro j hjd hjc
    unfold findLedger
    rw [hledgers,
      findLedger_incBalance (incBalance db.ledgers debit amount) credit j amount,
      findLedger_incBalance db.ledgers debit j amount]
    cases hfind : db.ledgers.find? (fun l => l.id == j) with
    | none => simp
    | some L =>
      have hLid : L.id = j := by simpa using List.find?_some hfind
      simp [hLid, hjd, hjc]

/-- C2, witness: posting 100 against the concrete ledger pair 1/2 answers
201, raises both balances from 0 to 100, and leaves any other id's lookup
unchanged. -/
theorem createTransaction_balances_witness :
    (createTransaction exUserP2 none 1 2 100 "m" TxnType.payment 7 20 "V2"
      exDBtxn).1.status = 201 ∧
    findLedger (createTransaction exUserP2 none 1 2 100 "m" TxnType.payment 7 20
      "V2" exDBtxn).2 1 = some { exCash with balance := 100 } ∧
    findLedger (createTransaction exUserP2 none 1 2 100 "m" TxnType.payment 7 20
      "V2" exDBtxn).2 2 = some { exBank with balance := 100 } ∧
    findLedger (createTransaction exUserP2 none 1 2 100 "m" TxnType.payment 7 20
      "V2" exDBtxn).2 9 = findLedger exDBtxn 9 := by
  have h := createTransaction_balances exDBtxn exUserP2 none 1 2 100 "m"
    TxnType.payment 7 20 "V2" exCash exBank (by decide) (by decide) (by decide)
  exact ⟨h.1, h.2.1, h.2.2.1, h.2.2.2 9 (by decide) (by decide)⟩

/-- C4: a non-master_admin caller who is not the creator of a stored
transaction gets 403 (or 404 when the record is soft-deleted) from getById
with no transaction data in the body, and the update and delete routes
answer 403 with the store unchanged; a master_admin caller bypasses the
ownership middleware entirely and reads any live transaction. -/
theorem ownership_isolation (db : DB) (caller : Principal) (t : Txn)
    (hmem : t ∈ db.txns) (hnd : (db.txns.map Txn.id).Nodup)
    (hrole : caller.role ≠ Role.master_admin) (howner : t.createdBy ≠ caller.id) :
    ((getTransactionById caller t.id db).status = 403 ∨
      (getTransactionById caller t.id db).status = 404) ∧
    (getTransactionById caller t.id db).txn = none ∧
    (∀ b, updateTransactionRoute caller t.id b db = (⟨403, none⟩, db)) ∧
    (∀ now, deleteTransactionRoute caller t.id now db = (⟨403, none⟩, db)) ∧
    (∀ admin : Principal, admin.role = Role.master_admin →
      canEditTransaction admin t.id db = none) ∧
    (∀ admin : Principal, admin.role = Role.master_admin → t.isDeleted = false →
      getTransactionById admin t.id db = ⟨200, some t⟩) := by
  have hfid := findTxnById_of_mem db t hmem hnd
  have hrb : (caller.role == Role.master_admin) = false := by simp [hrole]
  have hedit : canEditTransaction caller t.id db = some 403 := by
    simp [canEditTransaction, hrb, hfid, howner]
  have hbyid : (getTransactionById caller t.id db).status = 403 ∨
      (getTransactionById caller t.id db).status = 404 := by
    cases hdel : t.isDeleted with
    | false =>
      have hlive := findLiveTxn_of_mem db t hmem hnd hdel
      left
      simp [getTransactionById, hlive, hrole, howner]
    | true =>
      have hnone : findLiveTxn db t.id = none := by
        apply List.find?_eq_none.mpr
        intro s hs hp
        have hp' := (Bool.and_eq_true _ _).mp hp
        have hsid : s.id = t.id := by simpa using hp'.1
        have hst : s = t := eq_of_mem_of_key_eq Txn.id db.txns s t hs hmem hnd hsid
        have : s.isDeleted = false := by simpa using hp'.2
        rw [hst, hdel] at this
        simp at this
      right
      simp [getTransactionById, hnone]
  refine ⟨hbyid, ?_, ?_, ?_, ?_, ?_⟩
  · cases hdel : t.isDeleted with
    | false =>
      have hlive := findLiveTxn_of_mem db t hmem hnd hdel
      simp [getTransactionById, hlive, hrole, howner]
    | true =>
      have hnone : findLiveTxn db t.id = none := by
        apply List.find?_eq_none.mpr
        intro s hs hp
        have hp' := (Bool.and_eq_true _ _).mp hp
        have hsid : s.id = t.id := by simpa using hp'.1
        have hst : s = t := eq_of_mem_of_key_eq Txn.id db.txns s t hs hmem hnd hsid
        have : s.isDeleted = false := by simpa using hp'.2
        rw [hst, hdel] at this
        simp at this
      simp [getTransactionById, hnone]
  · intro b
    simp [updateTransactionRoute, hedit]
  · intro now
    simp [deleteTransactionRoute, hedit]
  · intro admin ha
    simp [canEditTransaction, ha]
  · intro admin ha hlivef
    have hlive := findLiveTxn_of_mem db t hmem hnd hlivef
    simp [getTransactionById, ha, hlive]

/-- C4, witness: user 3 cannot read, update or delete user 2's live
transaction, while the admin principal bypasses the middleware and reads
it. -/
theorem ownership_isolation_witness :
    (getTransactionById exUserP3 1 exDBtxn).status = 403 ∧
    (getTransactionById exUserP3 1 exDBtxn).txn = none ∧
    updateTransactionRoute exUserP3 1 ⟨none, none, none, some 7, none, none⟩
      exDBtxn = (⟨403, none⟩, exDBtxn) ∧
    deleteTransactionRoute exUserP3 1 42 exDBtxn = (⟨403, none⟩, exDBtxn) ∧
    canEditTransaction exAdminP 1 exDBtxn = none ∧
    getTransactionById exAdminP 1 exDBtxn = ⟨200, some exTxn⟩ := by
  have h := ownership_isolation exDBtxn exUserP3 exTxn (by decide) (by decide)
    (by decide) (by decide)
  refine ⟨?_, h.2.1, h.2.2.1 ⟨none, none, none, some 7, none, none⟩,
    h.2.2.2.1 42, h.2.2.2.2.1 exAdminP (by decide),
    h.2.2.2.2.2 exAdminP (by decide) (by decide)⟩
  rcases h.1 with h403 | h404
  · exact h403
  · exact absurd h404 (by decide)

/-- C5: soft-deleting an existing live transaction answers 200; the record
stays in the store (same collection length) with isDeleted set and
deletedAt/deletedBy populated and all other fields unchanged; afterwards
getById answers 404 for every caller, no list result contains the
transaction's id for any caller/filter/page, and the stats aggregate
coincides with the aggregate computed with the record removed. -/
theorem softDelete_roundTrip (db : DB) (caller : Principal) (t : Txn) (now : Nat)
    (hmem : t ∈ db.txns) (hnd : (db.txns.map Txn.id).Nodup)
    (hlive : t.isDeleted = false)
    (hperm : caller.role = Role.master_admin ∨ t.createdBy = caller.id) :
    (deleteTransaction caller t.id now db).1.status = 200 ∧
    { t with
        isDeleted := true
        deletedAt := some now
        deletedBy := some caller.id } ∈
      (deleteTransaction caller t.id now db).2.txns ∧
    (deleteTransaction caller t.id now db).2.txns.length = db.txns.length ∧
    (∀ c2 : Principal, getTransactionById c2 t.id
      (deleteTransaction caller t.id now db).2 = ⟨404, none⟩) ∧
    (∀ (c2 : Principal) (sd ed : Option Nat) (ty : Option TxnType)
      (page limit : Nat) (s : Txn),
      s ∈ (getAllTransactions c2 sd ed ty page limit
        (deleteTransaction caller t.id now db).2).1 → s.id ≠ t.id) ∧
    (∀ (c2 : Principal) (sd ed : Option Nat),
      getTransactionStats c2 sd ed (deleteTransaction caller t.id now db).2 =
      getTransactionStats c2 sd ed
        { (deleteTransaction caller t.id now db).2 with
            txns := (deleteTransaction caller t.id now db).2.txns.filter
              (fun s => s.id != t.id) }) := by
  have hfind := findLiveTxn_of_mem db t hmem hnd hlive
  have hguard : (caller.role != Role.master_admin && t.createdBy != caller.id) =
      false := by
    rcases hperm with h | h <;> simp [h]
  have hdb' : (deleteTransaction caller t.id now db).2 =
      { db with
          txns := setTxn db.txns t.id
            { t with
                isDeleted := true
                deletedAt := some now
                deletedBy := some caller.id }
          audit := db.audit ++
            [⟨.DELETE_TRANSACTION, caller.id, caller.role, some t.id⟩] } := by
    simp [deleteTransaction, hfind, hguard]
  have hmem' : ∀ s ∈ (deleteTransaction caller t.id now db).2.txns,
      s = { t with
              isDeleted := true
              deletedAt := some now
              deletedBy := some caller.id } ∨
        (s ∈ db.txns ∧ (s.id == t.id) = false) := by
    intro s hs
    rw [hdb'] at hs
    exact mem_replace Txn.id db.txns t.id _ s hs
  have hnone : findLiveTxn (deleteTransaction caller t.id now db).2 t.id = none := by
    apply List.find?_eq_none.mpr
    intro s hs hp
    have hp' := (Bool.and_eq_true _ _).mp hp
    rcases hmem' s hs with rfl | ⟨hsmem, hsid⟩
    · simpa using hp'.2
    · exact absurd (hsid.symm.trans hp'.1) (by simp)
  refine ⟨?_, ?_, ?_, ?_, ?_, ?_⟩
  · simp [deleteTransaction, hfind, hguard]
  · rw [hdb']
    exact List.mem_map.mpr ⟨t, hmem, by simp⟩
  · rw [hdb']
    simp [setTxn]
  · intro c2
    simp [getTransactionById, hnone]
  · intro c2 sd ed ty page limit s hs
    simp only [getAllTransactions] at hs
    have h1 := List.mem_of_mem_take hs
    have h2 := List.mem_of_mem_drop h1
    have h3 := (mem_sortTxns s _).mp h2
    have h4 := List.mem_filter.mp h3
    rcases hmem' s h4.1 with rfl | ⟨hsmem, hsid⟩
    · have := h4.2
      simp [matchesTxnQuery] at this
    · intro heq
      rw [heq] at hsid
      simp at hsid
  · intro c2 sd ed
    have hfeq :
        (deleteTransaction caller t.id now db).2.txns.filter
          (matchesTxnQuery c2 sd ed none) =
        ((deleteTransaction caller t.id now db).2.txns.filter
          (fun s => s.id != t.id)).filter (matchesTxnQuery c2 sd ed none) := by
      rw [List.filter_filter]
      apply List.filter_congr
      intro s hs
      rcases hmem' s hs with rfl | ⟨hsmem, hsid⟩
      · simp [matchesTxnQuery]
      · have hne : (s.id != t.id) = true := by simp [bne, hsid]
        simp [hne]
    simp only [getTransactionStats]
    rw [hfeq]

/-- C5, witness: user 2 soft-deletes their transaction 1; the record stays
with the deletion markers, getById answers 404 for user 3, and the stats
aggregate ignores the record. -/
theorem softDelete_roundTrip_witness :
    (deleteTransaction exUserP2 1 42 exDBtxn).1.status = 200 ∧
    { exTxn with
        isDeleted := true
        deletedAt := some 42
        deletedBy := some 2 } ∈ (deleteTransaction exUserP2 1 42 exDBtxn).2.txns ∧
    (deleteTransaction exUserP2 1 42 exDBtxn).2.txns.length =
      exDBtxn.txns.length ∧
    getTransactionById exUserP3 1 (deleteTransaction exUserP2 1 42 exDBtxn).2 =
      ⟨404, none⟩ ∧
    getTransactionStats exAdminP none none
      (deleteTransaction exUserP2 1 42 exDBtxn).2 =
    getTransactionStats exAdminP none none
      { (deleteTransaction exUserP2 1 42 exDBtxn).2 with
          txns := (deleteTransaction exUserP2 1 42 exDBtxn).2.txns.filter
            (fun s => s.id != 1) } := by
  have h := softDelete_roundTrip exDBtxn exUserP2 exTxn 42 (by decide)
    (by decide) (by decide) (Or.inr (by decide))
  exact ⟨h.1, h.2.1, h.2.2.1, h.2.2.2.1 exUserP3, h.2.2.2.2.2 exAdminP none none⟩

/-- C6, counterexample: deleting ledger 1, which the live transaction 1
references, is rejected with HTTP status 400 (the controller's
`res.status(400)`), not with the 409 Conflict status the code uses for its
other conflicts — the claim that the failure kind is Conflict is false. -/
theorem deleteLedger_conflict_is_400 :
    (deleteLedger exAdminP 1 exDBtxn).1 = 400 ∧
    (deleteLedger exAdminP 1 exDBtxn).1 ≠ 409 ∧
    (deleteLedger exAdminP 1 exDBtxn).2 = exDBtxn := by
  decide

/-- C6, amended: when at least one non-deleted transaction references the
ledger, delete fails with status 400 (Bad Request, not 409 Conflict) and
the store is unchanged; when no live transaction references it — in
particular after every referencing transaction has been soft-deleted — the
delete answers 200, the ledger's record stays in the store (same length)
with isActive set to false. -/
theorem ledger_delete_guard (db : DB) (caller : Principal) (id : Nat)
    (L : Ledger) (hL : findLedger db id = some L) :
    (0 < referencingTxnCount db id →
      deleteLedger caller id db = (400, db)) ∧
    ((∀ t ∈ db.txns, (t.debitLedger = id ∨ t.creditLedger = id) →
        t.isDeleted = true) →
      (deleteLedger caller id db).1 = 200 ∧
      findLedger (deleteLedger caller id db).2 id =
        some { L with isActive := false } ∧
      (deleteLedger caller id db).2.ledgers.length = db.ledgers.length) := by
  have hLid : L.id = id := by simpa using List.find?_some hL
  constructor
  · intro hpos
    simp [deleteLedger, hL, hpos]
  · intro hall
    have hzero : referencingTxnCount db id = 0 := by
      unfold referencingTxnCount
      rw [List.length_eq_zero]
      apply List.filter_eq_nil_iff.mpr
      intro t ht hp
      have hp' := (Bool.and_eq_true _ _).mp hp
      have href : t.debitLedger = id ∨ t.creditLedger = id := by
        rcases (Bool.or_eq_true _ _).mp hp'.1 with h | h
        · left; simpa using h
        · right; simpa using h
      have hdel := hall t ht href
      have hliv : t.isDeleted = false := by simpa using hp'.2
      rw [hdel] at hliv
      simp at hliv
    have hnpos : ¬ 0 < referencingTxnCount db id := by omega
    refine ⟨?_, ?_, ?_⟩
    · simp [deleteLedger, hL, hnpos]
    · have hdb' : (deleteLedger caller id db).2 =
          { db with
              ledgers := setLedger db.ledgers id { L with isActive := false }
              audit := db.audit ++
                [⟨.DELETE_LEDGER, caller.id, caller.role, some id⟩] } := by
        simp [deleteLedger, hL, hnpos]
      rw [hdb']
      exact find?_replace_eq Ledger.id db.ledgers id { L with isActive := false }
        L hL hLid
    · simp [deleteLedger, hL, hnpos, setLedger]

/-- C6, witness for the amended theorem: deleting the referenced ledger 1
fails with 400 and no change; after the referencing transaction is
soft-deleted, the same delete answers 200 and deactivates the record. -/
theorem ledger_delete_guard_witness :
    deleteLedger exAdminP 1 exDBtxn = (400, exDBtxn) ∧
    (deleteLedger exAdminP 1 exDBdeletedTxn).1 = 200 ∧
    findLedger (deleteLedger exAdminP 1 exDBdeletedTxn).2 1 =
      some { exCash with isActive := false } ∧
    (deleteLedger exAdminP 1 exDBdeletedTxn).2.ledgers.length =
      exDBdeletedTxn.ledgers.length := by
  have h1 := ledger_delete_guard exDBtxn exAdminP 1 exCash (by decide)
  have h2 := ledger_delete_guard exDBdeletedTxn exAdminP 1 exCash (by decide)
  refine ⟨h1.1 (by decide), ?_, ?_, ?_⟩
  · exact (h2.2 (by decide)).1
  · exact (h2.2 (by decide)).2.1
  · exact (h2.2 (by decide)).2.2

/-- C7, counterexample: the claim fails in two ways.  Update: the store's
active ledgers "Cash" and "Bank" have case-insensitively distinct names,
yet `updateLedger` renames ledger 2 to "cash" with a 200 answer and no
uniqueness check, leaving two active ledgers whose lower-cased names
coincide.  Create: beside the active ledger "A+B", creating "a+b" answers
201 — the unescaped interpolated pattern `^a+b$` (where `+` is a
quantifier) does not match "A+B", so the collision check misses a true
case-insensitive collision and create itself breaks the invariant. -/
theorem create_and_update_break_name_uniqueness :
    (activeNamesUnique exDBtxn ∧
      (updateLedger exAdminP 2 ⟨some "cash", none, none, none⟩ exDBtxn).1 = 200 ∧
      ¬ activeNamesUnique
        (updateLedger exAdminP 2 ⟨some "cash", none, none, none⟩ exDBtxn).2) ∧
    (activeNamesUnique exDBplus ∧
      (createLedger exUserP2 "a+b" LedgerType.asset 0 none 9 exDBplus).1 = 201 ∧
      ¬ activeNamesUnique
        (createLedger exUserP2 "a+b" LedgerType.asset 0 none 9 exDBplus).2) := by
  exact ⟨⟨by decide, by decide, by decide⟩, ⟨by decide, by decide, by decide⟩⟩

/-- C7, amended: `deleteLedger` always preserves case-insensitive
uniqueness of names among active ledgers, and for a name free of regex
metacharacters — where the interpolated collision regex degenerates to
case-insensitive equality — `createLedger` rejects a case-insensitive
collision with an active ledger with 409 Conflict and otherwise preserves
the invariant; but `updateLedger` performs no uniqueness check at all, and
for names containing metacharacters the unescaped interpolated regex of
`createLedger` can miss true case-insensitive collisions, so both update
and create can break the invariant (see the counterexample). -/
theorem ledger_name_uniqueness (db : DB) (caller : Principal) (name : String)
    (ty : LedgerType) (bal : Int) (descr : Option String) (newId id : Nat)
    (hinv : activeNamesUnique db) (hlit : regexLiteral name = true) :
    (ciNameCollision db name →
      createLedger caller name ty bal descr newId db = (409, db)) ∧
    (¬ ciNameCollision db name →
      (createLedger caller name ty bal descr newId db).1 = 201 ∧
      activeNamesUnique (createLedger caller name ty bal descr newId db).2) ∧
    activeNamesUnique (deleteLedger caller id db).2 := by
  have hcomp : compilePat name.data = some (name.data.map (fun c => ⟨c, false⟩)) :=
    compilePat_literal name.data (by simpa [regexLiteral] using hlit)
  have hany : (activeNameCollision db (name.data.map (fun c => ⟨c, false⟩))) = true ↔
      ciNameCollision db name := by
    unfold activeNameCollision ciNameCollision
    rw [List.any_eq_true]
    constructor
    · rintro ⟨l, hl, hp⟩
      rw [Bool.and_eq_true] at hp
      exact ⟨l, hl, hp.2, (matchAtoms_literal _ _).mp hp.1⟩
    · rintro ⟨l, hl, ha, hm⟩
      exact ⟨l, hl, by
        rw [Bool.and_eq_true]
        exact ⟨(matchAtoms_literal _ _).mpr hm, ha⟩⟩
  refine ⟨?_, ?_, ?_⟩
  · intro hc
    have hb := hany.mpr hc
    simp [createLedger, hcomp, hb]
  · intro hc
    have hb : activeNameCollision db (name.data.map (fun c => ⟨c, false⟩)) =
        false := by
      rw [Bool.eq_false_iff]
      exact fun h => hc (hany.mp h)
    refine ⟨by simp [createLedger, hcomp, hb], ?_⟩
    have hdb' : (createLedger caller name ty bal descr newId db).2.ledgers =
        db.ledgers ++ [{ id := newId
                         name := name
                         type := ty
                         balance := bal
                         description := descr
                         createdBy := caller.id
                         isActive := true }] := by
      simp [createLedger, hcomp, hb]
    unfold activeNamesUnique
    rw [hdb', List.filter_append]
    have hnewfilter : List.filter (fun l => l.isActive)
        [({ id := newId
            name := name
            type := ty
            balance := bal
            description := descr
            createdBy := caller.id
            isActive := true } : Ledger)] =
        [{ id := newId
           name := name
           type := ty
           balance := bal
           description := descr
           createdBy := caller.id
           isActive := true }] := by
      simp
    rw [hnewfilter, List.map_append, List.nodup_append]
    refine ⟨hinv, by simp, ?_⟩
    intro x hx hx2
    simp at hx2
    subst hx2
    obtain ⟨l, hl, hlname⟩ := List.mem_map.mp hx
    have hl' := List.mem_filter.mp hl
    exact hc ⟨l, hl'.1, hl'.2, hlname⟩
  · unfold deleteLedger
    cases hfind : findLedger db id with
    | none => simpa [activeNamesUnique] using hinv
    | some l =>
      by_cases hcnt : 0 < referencingTxnCount db id
      · simpa [hcnt, activeNamesUnique] using hinv
      · have hred : (if 0 < referencingTxnCount db id then ((400 : Nat), db)
            else (200, { db with
              ledgers := setLedger db.ledgers id { l with isActive := false }
              audit := db.audit ++
                [⟨.DELETE_LEDGER, caller.id, caller.role, some id⟩] })).2 =
            { db with
              ledgers := setLedger db.ledgers id { l with isActive := false }
              audit := db.audit ++
                [⟨.DELETE_LEDGER, caller.id, caller.role, some id⟩] } := by
          simp [hcnt]
        rw [hred]
        unfold activeNamesUnique
        have hsub := filter_setInactive_sublist db.ledgers id
          { l with isActive := false } rfl
        exact List.Nodup.sublist
          (hsub.map (fun v => lowerName v.name)) hinv

/-- C7, witness for the amended theorem on the concrete store: creating
"CASH" collides case-insensitively with "Cash" and is rejected, creating
"Fees" succeeds and keeps the invariant, and deleting ledger 2 keeps it
(all three names are metacharacter-free). -/
theorem ledger_name_uniqueness_witness :
    createLedger exUserP2 "CASH" LedgerType.asset 0 none 9 exDBtxn =
      (409, exDBtxn) ∧
    (createLedger exUserP2 "Fees" LedgerType.income 0 none 9 exDBtxn).1 = 201 ∧
    activeNamesUnique
      (createLedger exUserP2 "Fees" LedgerType.income 0 none 9 exDBtxn).2 ∧
    activeNamesUnique (deleteLedger exAdminP 2 exDBtxn).2 := by
  have h1 := ledger_name_uniqueness exDBtxn exUserP2 "CASH" LedgerType.asset 0
    none 9 2 (by decide) (by decide)
  have h2 := ledger_name_uniqueness exDBtxn exUserP2 "Fees" LedgerType.income 0
    none 9 2 (by decide) (by decide)
  have h3 := ledger_name_uniqueness exDBtxn exAdminP "Misc" LedgerType.expense 0
    none 9 2 (by decide) (by decide)
  exact ⟨h1.1 (by decide), (h2.2.1 (by decide)).1, (h2.2.1 (by decide)).2,
    h3.2.2⟩

end Claims

end TallyMini
